import Mathlib

/-!
Verification development for the real-time market-data streaming subsystem
(`backend/services/ws_stream_manager.py` and `backend/routes/stream.py`).

The Python code is shallowly embedded: dict-shaped payloads become structures
with `Option`-valued fields (`none` models an absent key or a `None` value),
the subscription registry becomes an insertion-ordered association list with
Python-dict update semantics, prices are rationals, and the methods of
`BreezeSocketService` become explicit state-passing functions.  Upstream
`subscribe_feeds` / `unsubscribe_feeds` invocations are recorded in an event
list so that theorems can count and inspect them.
-/

namespace BreezeStream

/-! ### Python-style primitives -/

/-- Python truthiness of an optional string (`None` and `""` are falsy). -/
def pyTruthy : Option String → Bool
  | none => false
  | some s => !(s = "")

/-- Python `x or y` on optional strings: keeps `x` when truthy, else `y`. -/
def pyOr (a b : Option String) : Option String :=
  if pyTruthy a then a else b

/-- Python `str(x or "")`: the string value of an optional, empty when falsy. -/
def pyStr (a : Option String) : String :=
  match a with
  | none => ""
  | some s => s

/-- Upper-case one ASCII letter (the payloads this system handles are
ASCII, so this models Python's `str.upper` character-wise). -/
def asciiUpper (c : Char) : Char :=
  match c with
  | 'a' => 'A' | 'b' => 'B' | 'c' => 'C' | 'd' => 'D' | 'e' => 'E' | 'f' => 'F'
  | 'g' => 'G' | 'h' => 'H' | 'i' => 'I' | 'j' => 'J' | 'k' => 'K' | 'l' => 'L'
  | 'm' => 'M' | 'n' => 'N' | 'o' => 'O' | 'p' => 'P' | 'q' => 'Q' | 'r' => 'R'
  | 's' => 'S' | 't' => 'T' | 'u' => 'U' | 'v' => 'V' | 'w' => 'W' | 'x' => 'X'
  | 'y' => 'Y' | 'z' => 'Z' | other => other

/-- Python `s.upper()` (ASCII model). -/
def pyUpper (s : String) : String := String.mk (s.toList.map asciiUpper)

/-- The characters Python's `str.strip()` removes. -/
def isPySpace (c : Char) : Bool :=
  c = ' ' ∨ c = '\t' ∨ c = '\n' ∨ c = '\r' ∨ c = '\x0b' ∨ c = '\x0c'

/-- Python `s.strip()`. -/
def pyStrip (s : String) : String :=
  String.mk ((((s.toList.dropWhile isPySpace).reverse).dropWhile isPySpace).reverse)

/-- Character-list prefix test. -/
def isPrefixCharList : List Char → List Char → Bool
  | [], _ => true
  | _ :: _, [] => false
  | p :: ps, c :: cs => p = c && isPrefixCharList ps cs

/-- Character-list substring search. -/
def hasSubstr : List Char → List Char → Bool
  | [], pat => isPrefixCharList pat []
  | c :: rest, pat => isPrefixCharList pat (c :: rest) || hasSubstr rest pat

/-- Python substring test `pat in s`. -/
def strContains (s pat : String) : Bool :=
  hasSubstr s.toList pat.toList

/-- Python single-character membership `ch in s`. -/
def strContainsChar (s : String) (ch : Char) : Bool :=
  s.toList.any (fun x => x = ch)

/-- Python `s.endswith(pat)`. -/
def strEndsWith (s pat : String) : Bool :=
  isPrefixCharList pat.toList.reverse s.toList.reverse

/-- Helper of `pySplitChar`: the accumulator holds the current piece
reversed. -/
def splitCharAux (sep : Char) : List Char → List Char → List (List Char)
  | [], acc => [acc.reverse]
  | c :: rest, acc =>
    if c = sep then acc.reverse :: splitCharAux sep rest []
    else splitCharAux sep rest (c :: acc)

/-- Python `s.split(sep)` for a one-character separator (empty pieces are
kept, as in Python). -/
def pySplitChar (s : String) (sep : Char) : List String :=
  (splitCharAux sep s.toList []).map String.mk

/-! ### Dates and the `strptime`/`strftime` formats the code uses -/

/-- Calendar date, as produced by `datetime.strptime` for the date formats
the code uses (the time-of-day part of a parse is validated and discarded). -/
structure Date where
  year : Nat
  month : Nat
  day : Nat
deriving Repr, DecidableEq

/-- Gregorian leap-year test (as in Python's `calendar`/`datetime`). -/
def isLeapYear (y : Nat) : Bool :=
  (y % 4 == 0 && y % 100 != 0) || (y % 400 == 0)

/-- Number of days of month `m` in year `y`. -/
def daysInMonth (y m : Nat) : Nat :=
  if m = 2 then (if isLeapYear y then 29 else 28)
  else if m = 4 ∨ m = 6 ∨ m = 9 ∨ m = 11 then 30
  else 31

/-- Validity check `datetime` performs when a parsed date is constructed. -/
def Date.valid (d : Date) : Bool :=
  1 ≤ d.year && 1 ≤ d.month && d.month ≤ 12 && 1 ≤ d.day && d.day ≤ daysInMonth d.year d.month

/-- Numeric value of a decimal digit character. -/
def digitVal (c : Char) : Nat := c.toNat - 48

/-- Parse one or two decimal digits, greedily, as `strptime` does for
`%d`/`%m`/`%H`/`%M`/`%S` (each of which is followed by a non-digit literal
in every format the code uses, so greedy matching agrees with the regex). -/
def parseNum2 : List Char → Option (Nat × List Char)
  | c₁ :: c₂ :: rest =>
    if c₁.isDigit && c₂.isDigit then some (10 * digitVal c₁ + digitVal c₂, rest)
    else if c₁.isDigit then some (digitVal c₁, c₂ :: rest)
    else none
  | [c₁] => if c₁.isDigit then some (digitVal c₁, []) else none
  | [] => none

/-- Parse exactly four decimal digits (`strptime`'s `%Y`). -/
def parseNum4 : List Char → Option (Nat × List Char)
  | c₁ :: c₂ :: c₃ :: c₄ :: rest =>
    if c₁.isDigit && c₂.isDigit && c₃.isDigit && c₄.isDigit then
      some (1000 * digitVal c₁ + 100 * digitVal c₂ + 10 * digitVal c₃ + digitVal c₄, rest)
    else none
  | _ => none

/-- Expect one literal character. -/
def expectC (c : Char) : List Char → Option (List Char)
  | x :: rest => if x = c then some rest else none
  | [] => none

/-- Abbreviated month names recognised by `strptime`'s `%b` (C locale). -/
def monthAbbrevs : List (String × Nat) :=
  [("JAN", 1), ("FEB", 2), ("MAR", 3), ("APR", 4), ("MAY", 5), ("JUN", 6),
   ("JUL", 7), ("AUG", 8), ("SEP", 9), ("OCT", 10), ("NOV", 11), ("DEC", 12)]

/-- Parse an abbreviated month name, case-insensitively (`%b`). -/
def parseMonthName : List Char → Option (Nat × List Char)
  | c₁ :: c₂ :: c₃ :: rest =>
    match monthAbbrevs.find? (fun p => p.1 = String.mk [asciiUpper c₁, asciiUpper c₂, asciiUpper c₃]) with
    | some p => some (p.2, rest)
    | none => none
  | _ => none

/-- Parse one to six fractional-second digits (`%f`). -/
def parseFrac (cs : List Char) : Option (List Char) :=
  let ds := cs.takeWhile Char.isDigit
  if 1 ≤ ds.length ∧ ds.length ≤ 6 then some (cs.drop ds.length) else none

/-- One `strptime` directive: a 1-2 digit number, a 4-digit year, an
abbreviated month name, a literal character, or fractional seconds. -/
inductive FmtTok
  | num2
  | num4
  | monthName
  | lit (c : Char)
  | frac
deriving Repr, DecidableEq

/-- Run a directive list over the input, collecting the numeric fields in
order; the whole input must be consumed (`strptime` raises on unconverted
trailing data). -/
def runFmt : List FmtTok → List Char → Option (List Nat)
  | [], [] => some []
  | [], _ :: _ => none
  | FmtTok.num2 :: ts, cs =>
    match parseNum2 cs with
    | some (v, rest) => (runFmt ts rest).map (fun vs => v :: vs)
    | none => none
  | FmtTok.num4 :: ts, cs =>
    match parseNum4 cs with
    | some (v, rest) => (runFmt ts rest).map (fun vs => v :: vs)
    | none => none
  | FmtTok.monthName :: ts, cs =>
    match parseMonthName cs with
    | some (v, rest) => (runFmt ts rest).map (fun vs => v :: vs)
    | none => none
  | FmtTok.lit c :: ts, cs =>
    match expectC c cs with
    | some rest => runFmt ts rest
    | none => none
  | FmtTok.frac :: ts, cs =>
    match parseFrac cs with
    | some rest => runFmt ts rest
    | none => none

/-- Model of `datetime.strptime(s, "%d-%b-%Y")` (e.g. `"13-Feb-2025"`). -/
def parseDMonY (s : String) : Option Date :=
  match runFmt [FmtTok.num2, FmtTok.lit '-', FmtTok.monthName, FmtTok.lit '-', FmtTok.num4]
      s.toList with
  | some [d, m, y] =>
    let dt : Date := ⟨y, m, d⟩
    if dt.valid then some dt else none
  | _ => none

/-- Model of `datetime.strptime(s, "%Y-%m-%d")` (e.g. `"2025-02-13"`). -/
def parseYMD (s : String) : Option Date :=
  match runFmt [FmtTok.num4, FmtTok.lit '-', FmtTok.num2, FmtTok.lit '-', FmtTok.num2]
      s.toList with
  | some [y, m, d] =>
    let dt : Date := ⟨y, m, d⟩
    if dt.valid then some dt else none
  | _ => none

/-- Model of `datetime.strptime(s, "%d/%m/%Y")`. -/
def parseDMYslash (s : String) : Option Date :=
  match runFmt [FmtTok.num2, FmtTok.lit '/', FmtTok.num2, FmtTok.lit '/', FmtTok.num4]
      s.toList with
  | some [d, m, y] =>
    let dt : Date := ⟨y, m, d⟩
    if dt.valid then some dt else none
  | _ => none

/-- Model of `datetime.strptime(s, "%Y-%m-%dT%H:%M:%S.%fZ")`
(e.g. `"2025-02-13T06:00:00.000Z"`); the time of day is validated and the
date part kept. -/
def parseISOZ (s : String) : Option Date :=
  match runFmt [FmtTok.num4, FmtTok.lit '-', FmtTok.num2, FmtTok.lit '-', FmtTok.num2,
      FmtTok.lit 'T', FmtTok.num2, FmtTok.lit ':', FmtTok.num2, FmtTok.lit ':', FmtTok.num2,
      FmtTok.lit '.', FmtTok.frac, FmtTok.lit 'Z'] s.toList with
  | some [y, m, d, hh, mi, ss] =>
    if hh < 24 ∧ mi < 60 ∧ ss < 60 then
      let dt : Date := ⟨y, m, d⟩
      if dt.valid then some dt else none
    else none
  | _ => none

/-- Zero-pad to two digits (`%m`, `%d`). -/
def pad2 (n : Nat) : String := if n < 10 then "0" ++ toString n else toString n

/-- Zero-pad to four digits (`%Y`). -/
def pad4 (n : Nat) : String :=
  if n < 10 then "000" ++ toString n
  else if n < 100 then "00" ++ toString n
  else if n < 1000 then "0" ++ toString n
  else toString n

/-- `strftime("%Y-%m-%d")`. -/
def Date.toYMD (d : Date) : String :=
  pad4 d.year ++ "-" ++ pad2 d.month ++ "-" ++ pad2 d.day

/-- `strftime("%Y-%m-%dT06:00:00.000Z")`, the fixed-time ISO form the code
stores as the "normalized" expiry. -/
def Date.toIsoZ (d : Date) : String := d.toYMD ++ "T06:00:00.000Z"

/-- Expiry normalization of `subscribe_option` / `subscribe_option_market_depth`:
try `"%d-%b-%Y"`, `"%Y-%m-%dT%H:%M:%S.%fZ"`, `"%Y-%m-%d"` in order; on success
re-format as `"%Y-%m-%dT06:00:00.000Z"`, otherwise keep the input unchanged
(the code's "assume ISO-like" fallback). -/
def isoExpiry (expiry : String) : String :=
  match parseDMonY expiry <|> parseISOZ expiry <|> parseYMD expiry with
  | some d => d.toIsoZ
  | none => expiry

/-- Expiry formatting inside the `on_ticks` callback: formats tried are
`"%d-%b-%Y"`, `"%Y-%m-%d"`, `"%d/%m/%Y"`, `"%Y-%m-%dT%H:%M:%S.%fZ"`; on
success re-format as `"%Y-%m-%dT06:00:00.000Z"`, otherwise pass the string
through unchanged. -/
def formatTickExpiry (s : String) : String :=
  match parseDMonY s <|> parseYMD s <|> parseDMYslash s <|> parseISOZ s with
  | some d => d.toIsoZ
  | none => s

/-- Accumulate decimal digits into a natural number. -/
def natOfDigits (ds : List Char) : Nat := ds.foldl (fun n c => 10 * n + digitVal c) 0

/-- Model of Python `int(float(s))` on the decimal forms the feed uses:
optional surrounding whitespace, optional sign, digits with an optional
fractional part (at least one digit overall) and an optional exponent;
the resulting value is truncated toward zero.  Special values (`inf`,
`nan`), underscore separators and binary-float rounding are not modelled;
`none` models the `ValueError` path. -/
def parseFloatTrunc (s : String) : Option Int :=
  let cs := (pyStrip s).toList
  let signRest : Int × List Char :=
    match cs with
    | '-' :: r => (-1, r)
    | '+' :: r => (1, r)
    | r => (1, r)
  let sign := signRest.1
  let cs := signRest.2
  let intDs := cs.takeWhile Char.isDigit
  let cs₁ := cs.drop intDs.length
  let fracSplit : List Char × List Char :=
    match cs₁ with
    | '.' :: r => (r.takeWhile Char.isDigit, r.drop (r.takeWhile Char.isDigit).length)
    | r => ([], r)
  let fracDs := fracSplit.1
  let cs₂ := fracSplit.2
  if intDs.isEmpty ∧ fracDs.isEmpty then none
  else
    let mantNum : Nat := natOfDigits intDs * 10 ^ fracDs.length + natOfDigits fracDs
    let finish : Int → Option Int := fun e =>
      let num : Nat := mantNum * 10 ^ e.toNat
      let den : Nat := 10 ^ (fracDs.length + (-e).toNat)
      some (sign * (num / den : Nat))
    match cs₂ with
    | [] => finish 0
    | e :: r =>
      if e = 'e' ∨ e = 'E' then
        let expSplit : Int × List Char :=
          match r with
          | '-' :: r' => (-1, r')
          | '+' :: r' => (1, r')
          | r' => (1, r')
        let expDs := expSplit.2.takeWhile Char.isDigit
        if expDs.isEmpty ∨ ¬(expSplit.2.drop expDs.length).isEmpty then none
        else finish (expSplit.1 * (natOfDigits expDs : Nat))
      else none

/-! ### Subscription registry (`self._subscriptions`, a Python dict) -/

/-- One registry value.  `alias := ""` models a record without an `"alias"`
key (possible on the token path of `subscribe_many`); everywhere the code
reads the alias it only tests truthiness, for which `""` and a missing key
behave identically. -/
structure SubRecord where
  exchange_code : String
  product_type : String
  aliasVal : String := ""
  stock_code : Option String := none
  expiry_date : Option String := none
  strike_price : Option Int := none
  right : Option String := none
  subscription_type : Option String := none
deriving Repr, DecidableEq

/-- The registry: an insertion-ordered association list with Python-dict
update semantics. -/
abbrev Registry := List (String × SubRecord)

/-- Python dict read `m.get(k)`. -/
def dictGet (m : Registry) (k : String) : Option SubRecord :=
  (m.find? (fun p => p.1 = k)).map (fun p => p.2)

/-- Python dict write `m[k] = v`: updates in place when the key exists,
appends otherwise. -/
def dictSet (m : Registry) (k : String) (v : SubRecord) : Registry :=
  if m.any (fun p => p.1 = k) then m.map (fun p => if p.1 = k then (k, v) else p)
  else m ++ [(k, v)]

/-- Python dict removal `m.pop(k, None)`. -/
def dictPop (m : Registry) (k : String) : Registry :=
  m.filter (fun p => ¬(p.1 = k))

/-- The registry's key list. -/
def dictKeys (m : Registry) : List String := m.map (fun p => p.1)

/-! ### The service state and the subscribe/unsubscribe transitions -/

/-- The option-contract descriptor `subscribe_option` receives. -/
structure OptionDescriptor where
  stock_code : String
  exchange_code : String
  expiry_date : String
  strike_price : String
  right : String
  product_type : String
deriving Repr, DecidableEq

/-- One upstream Breeze SDK invocation, as recorded by the model. -/
inductive UpstreamCall
  | subscribeOptionFeed (d : OptionDescriptor) (getMarketDepth getExchangeQuotes : Bool)
  | unsubscribeToken (token : String)
  | unsubscribePlain (exchange_code stock_code product_type : String)
deriving Repr, DecidableEq

/-- Observable state of `BreezeSocketService` for the registry claims:
whether `self._breeze` is set, the subscription registry, and the list of
upstream SDK calls issued so far.  The transitions below model the method
bodies after the lazy-connect preamble, i.e. they describe a service whose
websocket is already connected (`connect` itself is modelled separately by
`connectRun`). -/
structure SvcState where
  breezeAvailable : Bool := true
  subscriptions : Registry := []
  upstream : List UpstreamCall := []
deriving Repr, DecidableEq

/-- Right normalization of `subscribe_option`:
`"CALL" if right_u in ("CE", "CALL") else "PUT"`. -/
def rightTxtSub (right : String) : String :=
  if pyUpper right = "CE" ∨ pyUpper right = "CALL" then "CALL" else "PUT"

/-- `alias_iso` of `subscribe_option`: underlying upper-cased, normalized
expiry, normalized right, truncated integer strike, joined by `|`. -/
def optionAliasIso (d : OptionDescriptor) (strikeNorm : Int) : String :=
  pyUpper d.stock_code ++ "|" ++ isoExpiry d.expiry_date ++ "|" ++ rightTxtSub d.right
    ++ "|" ++ toString strikeNorm

/-- `alias_raw` of `subscribe_option`: same but with the expiry text exactly
as passed in. -/
def optionAliasRaw (d : OptionDescriptor) (strikeNorm : Int) : String :=
  pyUpper d.stock_code ++ "|" ++ d.expiry_date ++ "|" ++ rightTxtSub d.right
    ++ "|" ++ toString strikeNorm

/-- The registry value `subscribe_option` stores under each alias key.
Note the stored `alias` field is the key the loop is currently writing. -/
def optionRecord (d : OptionDescriptor) (aliasKey : String) (strikeNorm : Int)
    (subType : Option String) : SubRecord :=
  { exchange_code := d.exchange_code
    product_type := d.product_type
    aliasVal := aliasKey
    stock_code := some d.stock_code
    expiry_date := some (isoExpiry d.expiry_date)
    strike_price := some strikeNorm
    right := some d.right
    subscription_type := subType }

/-- Common body of `subscribe_option` (when `depthVariant = false`:
`get_market_depth=False, get_exchange_quotes=True`, no subscription type
marker) and `subscribe_option_market_depth` (when `depthVariant = true`:
the two flags flipped and `subscription_type = "market_depth"`); the two
Python methods are otherwise line-for-line identical.  `upstreamOk = false`
models `subscribe_feeds` raising, in which case the exception is re-raised
and the registry is left untouched; a strike that `int(float(_))` rejects
likewise raises after the upstream call was already made.  The returned
Boolean is `true` on the non-raising path. -/
def subscribeOptionCore (depthVariant upstreamOk : Bool) (d : OptionDescriptor)
    (st : SvcState) : SvcState × Bool :=
  if ¬ st.breezeAvailable then (st, false)
  else
    let st1 : SvcState :=
      { st with upstream := st.upstream
          ++ [UpstreamCall.subscribeOptionFeed d depthVariant (!depthVariant)] }
    if ¬ upstreamOk then (st1, false)
    else
      match parseFloatTrunc d.strike_price with
      | none => (st1, false)
      | some strikeNorm =>
        let aIso := optionAliasIso d strikeNorm
        let aRaw := optionAliasRaw d strikeNorm
        let subType : Option String := if depthVariant then some "market_depth" else none
        let subs := [aIso, aRaw, aIso].foldl
          (fun m a => dictSet m a (optionRecord d a strikeNorm subType)) st1.subscriptions
        ({ st1 with subscriptions := subs }, true)

/-- `BreezeSocketService.subscribe_option`. -/
def subscribeOption (upstreamOk : Bool) (d : OptionDescriptor) (st : SvcState) :
    SvcState × Bool :=
  subscribeOptionCore false upstreamOk d st

/-- `BreezeSocketService.subscribe_option_market_depth`. -/
def subscribeOptionDepth (upstreamOk : Bool) (d : OptionDescriptor) (st : SvcState) :
    SvcState × Bool :=
  subscribeOptionCore true upstreamOk d st

/-- `BreezeSocketService.unsubscribe`.  The upstream `unsubscribe_feeds`
call sits in a `try`/`except` whose `finally` pops the registry key, so the
resulting state does not depend on whether that call raises; `upstreamOk`
is carried only so theorems can quantify over both outcomes. -/
def unsubscribe (upstreamOk : Bool) (stock_code : String) (st : SvcState) : SvcState :=
  if ¬ st.breezeAvailable then st
  else
    let code := pyUpper stock_code
    match dictGet st.subscriptions code with
    | none => st
    | some sub =>
      let call :=
        if sub.exchange_code = "TOKEN" ∨ (¬(code = "") ∧ strContainsChar code '!') then
          UpstreamCall.unsubscribeToken code
        else
          UpstreamCall.unsubscribePlain sub.exchange_code code sub.product_type
      let _ := upstreamOk
      { st with upstream := st.upstream ++ [call]
                subscriptions := dictPop st.subscriptions code }

/-! ### Market-depth rows and the tick normalizer (`on_ticks`) -/

/-- One (price, quantity) level of a normalized depth ladder. -/
structure DepthLevel where
  price : ℚ
  qty : ℚ
deriving Repr, DecidableEq

/-- One row of the raw `depth` list.  `buyRate i` models the value at key
`"BestBuyRate-i"` (`none` ≡ key absent or `None`; the code's `key in row`
guard is subsumed because a level is kept only when both the price and the
quantity are present and non-`None`). -/
structure DepthRow where
  buyRate : Nat → Option ℚ
  buyQty : Nat → Option ℚ
  sellRate : Nat → Option ℚ
  sellQty : Nat → Option ℚ

/-- The depth levels the code scans, `range(1, 6)`. -/
def levelIndices : List Nat := [1, 2, 3, 4, 5]

/-- Collect the bid levels: for each level index, every row carrying both
the buy price and the buy quantity of that level contributes an entry. -/
def collectBids (rows : List DepthRow) : List DepthLevel :=
  levelIndices.flatMap fun i =>
    rows.filterMap fun r =>
      match r.buyRate i, r.buyQty i with
      | some p, some q => some ⟨p, q⟩
      | _, _ => none

/-- Collect the ask levels, analogously from the sell fields. -/
def collectAsks (rows : List DepthRow) : List DepthLevel :=
  levelIndices.flatMap fun i =>
    rows.filterMap fun r =>
      match r.sellRate i, r.sellQty i with
      | some p, some q => some ⟨p, q⟩
      | _, _ => none

/-- `bids_list.sort(key=price, reverse=True)`: stable sort, highest price
first. -/
def sortBidsDesc (l : List DepthLevel) : List DepthLevel :=
  l.mergeSort (fun a b => decide (b.price ≤ a.price))

/-- `asks_list.sort(key=price)`: stable sort, lowest price first. -/
def sortAsksAsc (l : List DepthLevel) : List DepthLevel :=
  l.mergeSort (fun a b => decide (a.price ≤ b.price))

/-- The raw broker tick as a loosely-typed map: each field models the dict
key of the same name (`openPrice` models the key `"open"`, which is a
reserved word in Lean).  Scalar payload values are modelled as strings,
depth-ladder values as level lists. -/
structure RawTick where
  stock_code : Option String := none
  symbol : Option String := none
  stock_code_name : Option String := none
  security_id : Option String := none
  scrip_id : Option String := none
  stock_token : Option String := none
  token : Option String := none
  exchange_code : Option String := none
  interval : Option String := none
  expiry_date : Option String := none
  expiry : Option String := none
  strike_price : Option String := none
  strike : Option String := none
  right_type : Option String := none
  right : Option String := none
  option_type : Option String := none
  last : Option String := none
  ltp : Option String := none
  close : Option String := none
  openPrice : Option String := none
  bPrice : Option String := none
  best_bid_price : Option String := none
  sPrice : Option String := none
  best_ask_price : Option String := none
  change : Option String := none
  pChange : Option String := none
  ltt : Option String := none
  datetime : Option String := none
  timestamp : Option String := none
  ltq : Option String := none
  volume : Option String := none
  total_quantity_traded : Option String := none
  OI : Option String := none
  open_interest : Option String := none
  oi : Option String := none
  ttv : Option String := none
  bQty : Option String := none
  best_bid_qty : Option String := none
  sQty : Option String := none
  best_ask_qty : Option String := none
  bids : Option (List DepthLevel) := none
  asks : Option (List DepthLevel) := none
  best_bids : Option (List DepthLevel) := none
  best_asks : Option (List DepthLevel) := none
  market_depth_buy : Option (List DepthLevel) := none
  market_depth_sell : Option (List DepthLevel) := none
  depth : Option (List DepthRow) := none

/-- Python truthiness of an optional list value. -/
def pyTruthyList : Option (List DepthLevel) → Bool
  | none => false
  | some l => !l.isEmpty

/-- Python `x or y` on optional list values. -/
def pyOrList (a b : Option (List DepthLevel)) : Option (List DepthLevel) :=
  if pyTruthyList a then a else b

/-- The normalized payload dict built by `on_ticks` (scalar values kept as
the strings of the raw tick; `symbol` is the resolved routing key). -/
structure TickPayload where
  symbol : String := ""
  token : Option String := none
  exchange_code : Option String := none
  interval : Option String := none
  expiry_date : Option String := none
  strike_price : Option String := none
  right_type : Option String := none
  right : Option String := none
  ltp : Option String := none
  close : Option String := none
  bid : Option String := none
  ask : Option String := none
  change_pct : Option String := none
  timestamp : Option String := none
  volume : Option String := none
  open_interest : Option String := none
  ttv : Option String := none
  last : Option String := none
  bids : Option (List DepthLevel) := none
  asks : Option (List DepthLevel) := none
  best_bid_qty : Option String := none
  best_ask_qty : Option String := none
deriving Repr, DecidableEq

/-- Index-name folding of `on_ticks`: raw names containing `NIFTY` collapse
onto the canonical family name. -/
def foldIndexName (rawSymU : String) : String :=
  if strContains rawSymU "NIFTY" && !strContains rawSymU "BANK"
      && !strContains rawSymU "FIN" then "NIFTY"
  else if strContains rawSymU "BANK" && strContains rawSymU "NIFTY" then "BANKNIFTY"
  else if strContains rawSymU "FIN" && strContains rawSymU "NIFTY" then "FINNIFTY"
  else rawSymU

/-- Right normalization of `on_ticks` (unlike `subscribe_option`, unknown
values pass through upper-cased). -/
def rightTxtTick (r : String) : String :=
  let ru := pyUpper r
  if ru = "CE" ∨ ru = "CALL" then "CALL"
  else if ru = "PE" ∨ ru = "PUT" then "PUT"
  else ru

/-- Strike normalization of `on_ticks`: `int(float(strike))`, falling back
to the raw string when the conversion raises. -/
def strikeNormTick (s : String) : String :=
  match parseFloatTrunc s with
  | some i => toString i
  | none => s

/-- Stored-alias lookup of `on_ticks`: by upstream token first, then by
upstream symbol; an empty stored alias is falsy and is skipped. -/
def aliasLookup (subs : Registry) (rawTokenU rawSymU : String) : Option String :=
  let byToken : Option String :=
    if ¬(rawTokenU = "") then
      match dictGet subs rawTokenU with
      | some r => if ¬(r.aliasVal = "") then some r.aliasVal else none
      | none => none
    else none
  if byToken.isSome then byToken
  else if ¬(rawSymU = "") then
    match dictGet subs rawSymU with
    | some r => if ¬(r.aliasVal = "") then some r.aliasVal else none
    | none => none
  else none

/-- Alias synthesis from the tick's own option fields (requires truthy
expiry, strike and right values). -/
def aliasFromTick (baseSym : String) (expiryRaw strikeRaw rightRaw : Option String) :
    Option String :=
  if pyTruthy expiryRaw ∧ pyTruthy strikeRaw ∧ pyTruthy rightRaw then
    some (baseSym ++ "|" ++ formatTickExpiry (pyStr expiryRaw) ++ "|"
      ++ rightTxtTick (pyStr rightRaw) ++ "|" ++ strikeNormTick (pyStr strikeRaw))
  else none

/-- The option/plain classification of `on_ticks`: presence (not truthiness)
of a strike field and of a right/option-type field. -/
def isOptionTick (t : RawTick) : Bool :=
  (t.strike_price.isSome || t.strike.isSome) &&
  (t.right_type.isSome || t.right.isSome || t.option_type.isSome)

/-- The two downstream client sets a tick can be routed to. -/
inductive RouteTarget
  | options
  | plain
deriving Repr, DecidableEq

/-- The `on_ticks` callback: builds the normalized payload (including depth
ladder reconstruction) and picks the broadcast target.  `loopSet` models
`self._loop is not None`; when it is false nothing is scheduled (`none`). -/
def onTicks (loopSet : Bool) (subs : Registry) (t : RawTick) :
    TickPayload × Option RouteTarget :=
  let rawSymU := pyUpper (pyStr (pyOr t.stock_code t.symbol))
  let baseSym := foldIndexName rawSymU
  let rawTokenU := pyUpper (pyStr (pyOr t.stock_token t.token))
  let aliasStored := aliasLookup subs rawTokenU rawSymU
  let expiryRaw := pyOr t.expiry_date t.expiry
  let strikeRaw := pyOr t.strike_price t.strike
  let rightRaw := pyOr (pyOr t.right_type t.right) t.option_type
  let aliasTick := aliasFromTick baseSym expiryRaw strikeRaw rightRaw
  let symbol0 := pyStr (pyOr (pyOr (pyOr aliasTick aliasStored) (some baseSym)) (some rawTokenU))
  let symbol := if strEndsWith symbol0 ".NS" then symbol0.dropRight 3 else symbol0
  let bids0 := pyOrList t.bids (pyOrList t.best_bids t.market_depth_buy)
  let asks0 := pyOrList t.asks (pyOrList t.best_asks t.market_depth_sell)
  let depthRows := match t.depth with
    | some rows => if rows.isEmpty then [] else rows
    | none => []
  let bidsParsed := sortBidsDesc (collectBids depthRows)
  let asksParsed := sortAsksAsc (collectAsks depthRows)
  let payload : TickPayload :=
    { symbol := symbol
      token := if ¬(rawTokenU = "") then some rawTokenU else none
      exchange_code := t.exchange_code
      interval := t.interval
      expiry_date := expiryRaw
      strike_price := strikeRaw
      right_type := rightRaw
      right := pyOr (pyOr t.right t.right_type) t.option_type
      ltp := pyOr (pyOr (pyOr t.last t.ltp) t.close) t.openPrice
      close := t.close
      bid := pyOr t.bPrice t.best_bid_price
      ask := pyOr t.sPrice t.best_ask_price
      change_pct := pyOr t.change t.pChange
      timestamp := pyOr (pyOr t.ltt t.datetime) t.timestamp
      volume := pyOr (pyOr t.ltq t.volume) t.total_quantity_traded
      open_interest := pyOr (pyOr t.OI t.open_interest) t.oi
      ttv := t.ttv
      last := pyOr t.last t.ltp
      bids := if ¬bidsParsed.isEmpty then some bidsParsed else bids0
      asks := if ¬asksParsed.isEmpty then some asksParsed else asks0
      best_bid_qty := pyOr t.bQty t.best_bid_qty
      best_ask_qty := pyOr t.sQty t.best_ask_qty }
  let route : Option RouteTarget :=
    if loopSet then
      some (if isOptionTick t then RouteTarget.options else RouteTarget.plain)
    else none
  (payload, route)

/-! ### The per-connection option filter of `/ws/options` -/

/-- Depth detection of `_forward_filtered_option_tick` on a delivered
payload: truthy `bids` or `asks` list (payloads built by `on_ticks` carry
no `depth` key, so that third disjunct of the Python code is always falsy
here). -/
def hasDepthPayload (p : TickPayload) : Bool :=
  pyTruthyList p.bids || pyTruthyList p.asks

/-- Model of `datetime.fromisoformat(s.replace('Z', '+00:00')).date()` for
the shapes this code path can receive: a bare ISO date, optionally followed
by a `T` or space separator and a time (whose digits are assumed
well-formed; only the date prefix is validated here). -/
def pyFromIsoDate (s : String) : Option Date :=
  if s.length = 10 then parseYMD s
  else if 10 < s.length ∧ (s.toList.get? 10 = some 'T' ∨ s.toList.get? 10 = some ' ') then
    parseYMD (s.take 10)
  else none

/-- Expiry normalization of `_forward_filtered_option_tick`: ISO-with-time
strings keep their first ten characters, `DD-Mon-YYYY` is re-formatted, any
other string goes through `fromisoformat`; every failure falls back to the
first ten characters. -/
def normExpiry10 (rawExp : String) : String :=
  if strContainsChar rawExp 'T' then rawExp.take 10
  else if (pySplitChar rawExp '-').length = 3
      ∧ ¬(((pySplitChar rawExp '-')[1]?).getD "" = "")
      ∧ (((pySplitChar rawExp '-')[1]?).getD "").toList.all Char.isAlpha then
    match parseDMonY rawExp with
    | some d => d.toYMD
    | none => rawExp.take 10
  else
    match pyFromIsoDate rawExp with
    | some d => d.toYMD
    | none => rawExp.take 10

/-- The per-connection filtered forwarder registered by `/ws/options`
(`_forward_filtered_option_tick`): `sel` is the connection's pinned expiry
(`selected_expiry_iso`, empty when unset).  Returns the payload actually
sent, or `none` when the tick is dropped for this connection. -/
def forwardFilteredOptionTick (sel : String) (p : TickPayload) : Option TickPayload :=
  if sel = "" then some p
  else
    let rawExp0 := pyStr p.expiry_date
    let rawExp :=
      if rawExp0 = "" then
        let sym := p.symbol
        if strContainsChar sym '|' then
          let parts := pySplitChar sym '|'
          if 2 ≤ parts.length then (parts[1]?).getD rawExp0 else rawExp0
        else rawExp0
      else rawExp0
    let norm := normExpiry10 rawExp
    if norm = "" ∧ hasDepthPayload p then some { p with expiry_date := some sel }
    else if ¬(norm = "") ∧ ¬(norm = sel) then none
    else some p

/-- All messages one `/ws/options` client receives when an option tick is
broadcast: the client's socket sits in `_option_clients`, so
`_broadcast_options` always sends it the unfiltered payload, and its
per-connection forwarder in `_option_tick_handlers` additionally sends the
filtered copy when the filter passes. -/
def optionClientDeliveries (sel : String) (p : TickPayload) : List TickPayload :=
  p :: (match forwardFilteredOptionTick sel p with
        | some q => [q]
        | none => [])

/-! ### The fan-out broadcast (`_broadcast` / `_broadcast_options`) -/

/-- How one client's `send_text` behaves during a broadcast.  Calling an
`async def` method never raises the body's exceptions, so a closed or
broken socket manifests when the coroutine is awaited (`failAtAwait`);
`failAtCall` is the only case the loop's `try`/`except` can see
(e.g. the handle lacking a `send_text` attribute). -/
inductive SendBehavior
  | ok
  | failAtCall
  | failAtAwait
deriving Repr, DecidableEq

/-- One registered client handle. -/
structure BClient where
  id : Nat
  behavior : SendBehavior
deriving Repr, DecidableEq

/-- Outcome of one `_broadcast` (or `_broadcast_options`) invocation. -/
structure BroadcastOutcome where
  delivered : List Nat
  clientsAfter : List BClient
  errorSurfaced : Bool
deriving Repr, DecidableEq

/-- `_broadcast`: iterate over a snapshot of the client set, collecting the
`send_text` coroutines and discarding (only) clients whose coroutine
construction raises; then `asyncio.gather(*coros, return_exceptions=True)`
runs every collected coroutine, delivering to the healthy clients and
swallowing await-time failures without removing those clients; no exception
escapes. -/
def broadcastRun (clients : List BClient) : BroadcastOutcome :=
  let coros := clients.filter (fun c => ¬(c.behavior = SendBehavior.failAtCall))
  { delivered := (coros.filter (fun c => c.behavior = SendBehavior.ok)).map (fun c => c.id)
    clientsAfter := clients.filter (fun c => ¬(c.behavior = SendBehavior.failAtCall))
    errorSurfaced := false }

/-! ### `connect()` retry loop -/

/-- Outcome of the `ws_connect` retry loop in `connect()`: the final
`self._connected` flag, how many attempts ran, the `time.sleep` durations
(seconds) between attempts, and the error re-raised to the caller, if any.
Errors are identified by opaque numbers. -/
structure ConnectOutcome where
  connected : Bool
  attemptsMade : Nat
  sleeps : List ℚ
  raised : Option Nat
deriving Repr, DecidableEq

/-- `backoff_seconds = 1.5`. -/
def backoffSeconds : ℚ := 3 / 2

/-- `max_attempts = 5`. -/
def maxAttempts : Nat := 5

/-- The retry loop from attempt number `attempt` with `remaining` attempts
left: `f k = none` means attempt `k`'s `ws_connect()` succeeds, `some e`
means it raises error `e`.  On success the loop sets the connected flag and
breaks; on the final failure it re-raises; otherwise it sleeps
`backoff_seconds * attempt` and continues. -/
def connectFrom (f : Nat → Option Nat) (attempt : Nat) : Nat → ConnectOutcome
  | 0 => { connected := false, attemptsMade := 0, sleeps := [], raised := none }
  | r + 1 =>
    match f attempt with
    | none => { connected := true, attemptsMade := 1, sleeps := [], raised := none }
    | some e =>
      if r = 0 then { connected := false, attemptsMade := 1, sleeps := [], raised := some e }
      else
        let rest := connectFrom f (attempt + 1) r
        { connected := rest.connected
          attemptsMade := rest.attemptsMade + 1
          sleeps := backoffSeconds * (attempt : ℚ) :: rest.sleeps
          raised := rest.raised }

/-- The full retry loop of `connect()`: attempts `1..5`. -/
def connectRun (f : Nat → Option Nat) : ConnectOutcome :=
  connectFrom f 1 maxAttempts

/-! ### The per-connection debounce gate of `/ws/ticks` (`forward_tick`) -/

/-- `ConnectionState`, reduced to the debounce-relevant fields: the single
pinned symbol, the per-symbol last-send map (milliseconds of the monotonic
clock) and the minimum send interval. -/
structure ConnState where
  symbol : Option String := none
  lastSentBySym : List (String × ℚ) := []
  minIntervalMs : ℚ := 250
deriving Repr, DecidableEq

/-- Read of the per-symbol timestamp dict. -/
def tsGet (m : List (String × ℚ)) (k : String) : Option ℚ :=
  (m.find? (fun p => p.1 = k)).map (fun p => p.2)

/-- Write to the per-symbol timestamp dict (Python-dict semantics). -/
def tsSet (m : List (String × ℚ)) (k : String) (v : ℚ) : List (String × ℚ) :=
  if m.any (fun p => p.1 = k) then m.map (fun p => if p.1 = k then (k, v) else p)
  else m ++ [(k, v)]

/-- `_extract_symbol_from_tick`: first truthy of five raw name fields,
upper-cased, trimmed, `.NS` suffix stripped; falls back to the
connection's pinned symbol. -/
def extractSymbolFromTick (st : ConnState) (t : RawTick) : Option String :=
  let raw := pyOr (pyOr (pyOr (pyOr t.stock_code t.symbol) t.stock_code_name)
    t.security_id) t.scrip_id
  if pyTruthy raw then
    let code := pyStrip (pyUpper (pyStr raw))
    some (if strEndsWith code ".NS" then code.dropRight 3 else code)
  else st.symbol

/-- `forward_tick` at monotonic time `now` (milliseconds): suppress when
fewer than `min_interval_ms` elapsed since the last send recorded for this
symbol (default `0.0` for an unseen symbol); otherwise record `now` and
send.  Returns the new state and whether a message was sent.  (This
function is defined inside `ws_ticks` but is never invoked by it: the live
delivery path is `_broadcast`, modelled by `broadcastRun`.) -/
def forwardTick (st : ConnState) (t : RawTick) (now : ℚ) : ConnState × Bool :=
  let sym := pyStr (pyOr (extractSymbolFromTick st t) st.symbol)
  let lastV := (tsGet st.lastSentBySym sym).getD 0
  if now - lastV < st.minIntervalMs then (st, false)
  else ({ st with lastSentBySym := tsSet st.lastSentBySym sym now }, true)

end BreezeStream

namespace BreezeStream

/-! ### Concrete instances used by the scenario theorems -/

/-- The option descriptor of the spec's subscribe scenario. -/
def c2Descriptor : OptionDescriptor :=
  { stock_code := "NIFTY", exchange_code := "NFO",
    expiry_date := "2025-02-13T06:00:00.000Z", strike_price := "23600",
    right := "call", product_type := "options" }

/-- The same contract subscribed with the broker-format expiry
`DD-Mon-YYYY` (the form `/ws/options` actually passes down). -/
def c9Descriptor : OptionDescriptor :=
  { stock_code := "NIFTY", exchange_code := "NFO",
    expiry_date := "13-Feb-2025", strike_price := "23600",
    right := "call", product_type := "options" }

/-- A depth row carrying only level 1 on both sides:
`BestBuyRate-1=100, BestBuyQty-1=50, BestSellRate-1=101, BestSellQty-1=30`. -/
def scenarioRow : DepthRow :=
  { buyRate := fun i => if i = 1 then some 100 else none
    buyQty := fun i => if i = 1 then some 50 else none
    sellRate := fun i => if i = 1 then some 101 else none
    sellQty := fun i => if i = 1 then some 30 else none }

/-- The raw depth tick of the market-depth scenario. -/
def scenarioDepthTick : RawTick := { depth := some [scenarioRow] }

/-- A raw option tick that also carries a stock code. -/
def c3Tick : RawTick :=
  { stock_code := some "NIFTY", strike_price := some "23600", right := some "call" }

/-- A payload resolved to the wrong-expiry alias (no `expiry_date` field,
no depth), as `on_ticks` produces for a quote tick of that contract. -/
def mismatchPayload : TickPayload := { symbol := "NIFTY|2025-02-20|CALL|23600" }

/-- A payload resolved to the pinned-expiry alias. -/
def matchPayload : TickPayload := { symbol := "NIFTY|2025-02-13|CALL|23600" }

/-- A plain raw tick used for the debounce scenario. -/
def debounceTick : RawTick := { stock_code := some "NIFTY" }

/-- Ten registered clients; client 9's socket is already closed, so its
`send_text` coroutine raises when awaited. -/
def tenClients : List BClient :=
  [⟨0, SendBehavior.ok⟩, ⟨1, SendBehavior.ok⟩, ⟨2, SendBehavior.ok⟩,
   ⟨3, SendBehavior.ok⟩, ⟨4, SendBehavior.ok⟩, ⟨5, SendBehavior.ok⟩,
   ⟨6, SendBehavior.ok⟩, ⟨7, SendBehavior.ok⟩, ⟨8, SendBehavior.ok⟩,
   ⟨9, SendBehavior.failAtAwait⟩]

/-! ### Registry lemmas -/

/-- Updating key `k` fixes a list whose `k`-entries already hold `v`. -/
theorem map_setFn_eq_self (m : Registry) (k : String) (v : SubRecord)
    (h : ∀ p ∈ m, p.1 = k → p.2 = v) :
    m.map (fun p => if p.1 = k then (k, v) else p) = m := by
  induction m with
  | nil => rfl
  | cons p m ih =>
    obtain ⟨a, b⟩ := p
    have h0 : ∀ q ∈ m, q.1 = k → q.2 = v := fun q hq => h q (List.mem_cons_of_mem _ hq)
    by_cases hak : a = k
    · have hbv : b = v := h (a, b) (List.mem_cons_self _ _) hak
      simp [hak, hbv, ih h0]
    · simp [hak, ih h0]

/-- Every `k`-entry of `dictSet m k v` holds `v`. -/
theorem dictSet_allVal (m : Registry) (k : String) (v : SubRecord) :
    ∀ p ∈ dictSet m k v, p.1 = k → p.2 = v := by
  intro p hp hpk
  unfold dictSet at hp
  cases hany : m.any (fun p => p.1 = k) with
  | true =>
    rw [hany] at hp
    simp only [if_true, List.mem_map] at hp
    obtain ⟨q, hq, hfq⟩ := hp
    by_cases hqk : q.1 = k
    · rw [if_pos hqk] at hfq
      rw [← hfq]
    · rw [if_neg hqk] at hfq
      rw [← hfq] at hpk
      exact absurd hpk hqk
  | false =>
    rw [hany] at hp
    simp only [Bool.false_eq_true, if_false, List.mem_append, List.mem_singleton] at hp
    rcases hp with hp | hp
    · exfalso
      have : m.any (fun p => p.1 = k) = true :=
        List.any_eq_true.mpr ⟨p, hp, by simp [hpk]⟩
      rw [hany] at this
      exact Bool.false_ne_true this
    · rw [hp]

/-- `dictSet` with another key preserves the all-`k`-entries-hold-`v`
property, provided a clashing write carries the same value. -/
theorem dictSet_allVal_preserve (m : Registry) (k k₂ : String) (v v₂ : SubRecord)
    (h : ∀ p ∈ m, p.1 = k → p.2 = v) (h2 : k₂ = k → v₂ = v) :
    ∀ p ∈ dictSet m k₂ v₂, p.1 = k → p.2 = v := by
  intro p hp hpk
  unfold dictSet at hp
  cases hany : m.any (fun p => p.1 = k₂) with
  | true =>
    rw [hany] at hp
    simp only [if_true, List.mem_map] at hp
    obtain ⟨q, hq, hfq⟩ := hp
    by_cases hqk : q.1 = k₂
    · rw [if_pos hqk] at hfq
      rw [← hfq] at hpk ⊢
      exact h2 hpk
    · rw [if_neg hqk] at hfq
      rw [← hfq]
      rw [← hfq] at hpk
      exact h q hq hpk
  | false =>
    rw [hany] at hp
    simp only [Bool.false_eq_true, if_false, List.mem_append, List.mem_singleton] at hp
    rcases hp with hp | hp
    · exact h p hp hpk
    · rw [hp]
      rw [hp] at hpk
      exact h2 hpk

/-- After `dictSet m k v` the key `k` is present. -/
theorem dictSet_hasKey_self (m : Registry) (k : String) (v : SubRecord) :
    (dictSet m k v).any (fun p => p.1 = k) = true := by
  unfold dictSet
  cases hany : m.any (fun p => p.1 = k) with
  | true =>
    simp only [if_true]
    obtain ⟨q, hq, hqk⟩ := List.any_eq_true.mp hany
    refine List.any_eq_true.mpr ⟨(k, v), List.mem_map.mpr ⟨q, hq, ?_⟩, by simp⟩
    simp only [decide_eq_true_eq] at hqk
    rw [if_pos hqk]
  | false =>
    simp

/-- `dictSet` never removes a present key. -/
theorem dictSet_hasKey_mono (m : Registry) (k k₂ : String) (v₂ : SubRecord)
    (h : m.any (fun p => p.1 = k) = true) :
    (dictSet m k₂ v₂).any (fun p => p.1 = k) = true := by
  by_cases hkk : k₂ = k
  · rw [hkk]
    exact dictSet_hasKey_self m k v₂
  · obtain ⟨q, hq, hqk⟩ := List.any_eq_true.mp h
    simp only [decide_eq_true_eq] at hqk
    unfold dictSet
    cases hany : m.any (fun p => p.1 = k₂) with
    | true =>
      simp only [if_true]
      refine List.any_eq_true.mpr ⟨q, List.mem_map.mpr ⟨q, hq, ?_⟩, by simp [hqk]⟩
      rw [if_neg (by rw [hqk]; exact fun hh => hkk hh.symm)]
    | false =>
      simp only [Bool.false_eq_true, if_false]
      exact List.any_eq_true.mpr ⟨q, List.mem_append_left _ hq, by simp [hqk]⟩

/-- Re-writing a present key with the value its entries already hold is a
no-op on the registry. -/
theorem dictSet_self_of_allVal (m : Registry) (k : String) (v : SubRecord)
    (hany : m.any (fun p => p.1 = k) = true)
    (h : ∀ p ∈ m, p.1 = k → p.2 = v) :
    dictSet m k v = m := by
  unfold dictSet
  rw [hany]
  simp only [if_true]
  exact map_setFn_eq_self m k v h

end BreezeStream

namespace BreezeStream

/-- Reading back the key just written. -/
theorem dictGet_dictSet_self (m : Registry) (k : String) (v : SubRecord) :
    dictGet (dictSet m k v) k = some v := by
  unfold dictGet dictSet
  cases hany : m.any (fun p => p.1 = k) with
  | true =>
    simp only [if_true]
    rw [List.find?_map]
    have hpred : ((fun p : String × SubRecord => decide (p.1 = k)) ∘
        (fun p : String × SubRecord => if p.1 = k then (k, v) else p))
        = fun p : String × SubRecord => decide (p.1 = k) := by
      funext q
      by_cases hq : q.1 = k
      · simp [hq]
      · simp [hq]
    rw [hpred]
    obtain ⟨q, hq, hqk⟩ := List.any_eq_true.mp hany
    have hsome : ((m.find? (fun p : String × SubRecord => decide (p.1 = k))).isSome = true) :=
      List.find?_isSome.mpr ⟨q, hq, hqk⟩
    cases hfind : m.find? (fun p : String × SubRecord => decide (p.1 = k)) with
    | none => rw [hfind] at hsome; simp at hsome
    | some q' =>
      have hq'k : q'.1 = k := by simpa using List.find?_some hfind
      simp [hq'k]
  | false =>
    simp only [Bool.false_eq_true, if_false]
    rw [List.find?_append]
    have hnone : m.find? (fun p : String × SubRecord => decide (p.1 = k)) = none := by
      refine List.find?_eq_none.mpr fun x hx hpx => ?_
      have : m.any (fun p => p.1 = k) = true := List.any_eq_true.mpr ⟨x, hx, hpx⟩
      rw [hany] at this
      exact Bool.false_ne_true this
    rw [hnone]
    simp

/-- Reading a different key than the one written. -/
theorem dictGet_dictSet_ne (m : Registry) (k k' : String) (v : SubRecord)
    (hne : ¬(k' = k)) :
    dictGet (dictSet m k v) k' = dictGet m k' := by
  unfold dictGet dictSet
  cases hany : m.any (fun p => p.1 = k) with
  | true =>
    simp only [if_true]
    rw [List.find?_map]
    have hpred : ((fun p : String × SubRecord => decide (p.1 = k')) ∘
        (fun p : String × SubRecord => if p.1 = k then (k, v) else p))
        = fun p : String × SubRecord => decide (p.1 = k') := by
      funext q
      by_cases hq : q.1 = k
      · simp [hq, hne, fun h : k = k' => hne h.symm]
      · simp [hq]
    rw [hpred]
    cases hfind : m.find? (fun p : String × SubRecord => decide (p.1 = k')) with
    | none => simp
    | some q' =>
      have hq'k : q'.1 = k' := by simpa using List.find?_some hfind
      have : ¬(q'.1 = k) := by rw [hq'k]; exact hne
      simp [this]
  | false =>
    simp only [Bool.false_eq_true, if_false]
    rw [List.find?_append]
    have hkk : ¬(k = k') := fun h => hne h.symm
    have : ([(k, v)].find? (fun p : String × SubRecord => decide (p.1 = k'))) = none := by
      simp [hkk]
    rw [this]
    simp

/-- Key presence after a write: the written key, or anything already there. -/
theorem dictGet_dictSet_isSome (m : Registry) (k k' : String) (v : SubRecord) :
    (dictGet (dictSet m k v) k').isSome ↔ (k' = k ∨ (dictGet m k').isSome) := by
  by_cases hk : k' = k
  · subst hk
    rw [dictGet_dictSet_self]
    simp
  · rw [dictGet_dictSet_ne m k k' v hk]
    simp [hk]

/-- `pop` really removes the key. -/
theorem dictGet_dictPop_self (m : Registry) (k : String) :
    dictGet (dictPop m k) k = none := by
  unfold dictGet dictPop
  cases hfind : (m.filter fun p : String × SubRecord => decide ¬(p.1 = k)).find?
      (fun p => decide (p.1 = k)) with
  | none => rfl
  | some q =>
    have h1 : q.1 = k := by simpa using List.find?_some hfind
    have h2 := List.mem_filter.mp (List.mem_of_find?_eq_some hfind)
    rw [h1] at h2
    simp at h2

end BreezeStream

namespace BreezeStream

/-- Successful-path characterization of `subscribeOptionCore`. -/
theorem subscribeOptionCore_success (dv : Bool) (d : OptionDescriptor) (st : SvcState)
    (hb : st.breezeAvailable = true) (sn : Int)
    (hp : parseFloatTrunc d.strike_price = some sn) :
    subscribeOptionCore dv true d st =
      ({ breezeAvailable := st.breezeAvailable
         subscriptions :=
           dictSet (dictSet (dictSet st.subscriptions (optionAliasIso d sn)
               (optionRecord d (optionAliasIso d sn) sn
                 (if dv then some "market_depth" else none)))
             (optionAliasRaw d sn)
             (optionRecord d (optionAliasRaw d sn) sn
               (if dv then some "market_depth" else none)))
           (optionAliasIso d sn)
           (optionRecord d (optionAliasIso d sn) sn
             (if dv then some "market_depth" else none))
         upstream := st.upstream ++ [UpstreamCall.subscribeOptionFeed d dv (!dv)] }, true) := by
  unfold subscribeOptionCore
  simp [hb, hp]

/-- A successful `subscribeOptionCore` run requires an available breeze
session, a non-raising upstream call, and a parseable strike. -/
theorem subscribeOptionCore_success_inv (dv ok : Bool) (d : OptionDescriptor) (st : SvcState)
    (h : (subscribeOptionCore dv ok d st).2 = true) :
    st.breezeAvailable = true ∧ ok = true ∧ ∃ sn, parseFloatTrunc d.strike_price = some sn := by
  by_cases hb : st.breezeAvailable = true
  · by_cases hok : ok = true
    · cases hp : parseFloatTrunc d.strike_price with
      | none => simp [subscribeOptionCore, hb, hok, hp] at h
      | some sn => exact ⟨hb, hok, sn, rfl⟩
    · simp [subscribeOptionCore, hb, hok] at h
  · simp [subscribeOptionCore, hb] at h

/-- C1 (counterexample).  Subscribing the same option descriptor twice
issues two upstream `subscribe_feeds` calls, not one: the method has no
presence check before calling the SDK. -/
theorem c1_counterexample_two_upstream_calls :
    (subscribeOption true c2Descriptor ((subscribeOption true c2Descriptor {}).1)).1.upstream.length
      = 2 := by
  decide

/-- C1 (amended).  Re-subscribing with an identical descriptor is
idempotent on the registry — the second call rewrites the same keys with
identical records, leaving the registry exactly as the first call left it —
but it is not a no-op upstream: each call issues its own
`subscribe_feeds` call, so two calls issue two upstream calls in total. -/
theorem subscribe_option_resubscribe_registry_idempotent (d : OptionDescriptor)
    (st : SvcState) (h : (subscribeOption true d st).2 = true) :
    (subscribeOption true d (subscribeOption true d st).1).1.subscriptions
      = (subscribeOption true d st).1.subscriptions ∧
    (subscribeOption true d (subscribeOption true d st).1).1.upstream
      = st.upstream ++ [UpstreamCall.subscribeOptionFeed d false true,
          UpstreamCall.subscribeOptionFeed d false true] := by
  obtain ⟨hb, -, sn, hp⟩ := subscribeOptionCore_success_inv false true d st h
  have h1 := subscribeOptionCore_success false d st hb sn hp
  have hb1 : ((subscribeOption true d st).1).breezeAvailable = true := by
    rw [subscribeOption, h1]
    exact hb
  have h2 := subscribeOptionCore_success false d ((subscribeOption true d st).1) hb1 sn hp
  set aI := optionAliasIso d sn with haI
  set aR := optionAliasRaw d sn with haR
  set rI := optionRecord d aI sn (if false then some "market_depth" else none) with hrI
  set rR := optionRecord d aR sn (if false then some "market_depth" else none) with hrR
  set m1 := dictSet st.subscriptions aI rI with hm1
  set m2 := dictSet m1 aR rR with hm2
  set m3 := dictSet m2 aI rI with hm3
  have hsubs1 : ((subscribeOption true d st).1).subscriptions = m3 := by
    rw [subscribeOption, h1]
  have hup1 : ((subscribeOption true d st).1).upstream
      = st.upstream ++ [UpstreamCall.subscribeOptionFeed d false true] := by
    rw [subscribeOption, h1]
    rfl
  have hclash : aR = aI → rR = rI := by
    intro hh
    rw [hrR, hrI, hh]
  have hclash' : aI = aR → rI = rR := by
    intro hh
    exact (hclash hh.symm).symm
  have hstep1 : dictSet m3 aI rI = m3 :=
    dictSet_self_of_allVal m3 aI rI (dictSet_hasKey_self m2 aI rI) (dictSet_allVal m2 aI rI)
  have hvalR : ∀ p ∈ m3, p.1 = aR → p.2 = rR := by
    rw [hm3]
    exact dictSet_allVal_preserve m2 aR aI rR rI (dictSet_allVal m1 aR rR) hclash'
  have hkeyR : m3.any (fun p => p.1 = aR) = true := by
    rw [hm3]
    exact dictSet_hasKey_mono m2 aR aI rI (dictSet_hasKey_self m1 aR rR)
  have hstep2 : dictSet m3 aR rR = m3 := dictSet_self_of_allVal m3 aR rR hkeyR hvalR
  constructor
  · rw [subscribeOption, h2, hsubs1]
    simp only
    rw [hstep1, hstep2, hstep1]
  · rw [subscribeOption, h2]
    simp only
    rw [hup1, List.append_assoc]
    rfl

/-- C1 (witness). -/
theorem subscribe_option_resubscribe_registry_idempotent_witness :
    (subscribeOption true c2Descriptor (subscribeOption true c2Descriptor {}).1).1.subscriptions
      = (subscribeOption true c2Descriptor {}).1.subscriptions :=
  (subscribe_option_resubscribe_registry_idempotent c2Descriptor {} (by decide)).1

/-- C2 (counterexample).  The stored alias of the scenario descriptor is
not the bare-date form `NIFTY|2025-02-13|CALL|23600`: no registry key
equals it, because the code re-formats the expiry with
`strftime("%Y-%m-%dT06:00:00.000Z")`, not as a bare ISO date. -/
theorem c2_counterexample_alias_is_not_bare_date :
    dictGet ((subscribeOption true c2Descriptor {}).1).subscriptions
        "NIFTY|2025-02-13|CALL|23600" = none ∧
    dictKeys ((subscribeOption true c2Descriptor {}).1).subscriptions
      = ["NIFTY|2025-02-13T06:00:00.000Z|CALL|23600"] := by
  constructor
  · decide
  · decide

/-- C2 (amended).  Subscribing the scenario descriptor stores one record
whose alias (and key) is `NIFTY|2025-02-13T06:00:00.000Z|CALL|23600`: the
registry keeps the fixed-time ISO form `%Y-%m-%dT06:00:00.000Z` as its
canonical expiry, not the bare ISO date. -/
theorem subscribe_option_scenario_alias :
    dictGet ((subscribeOption true c2Descriptor {}).1).subscriptions
        "NIFTY|2025-02-13T06:00:00.000Z|CALL|23600"
      = some { exchange_code := "NFO", product_type := "options",
               aliasVal := "NIFTY|2025-02-13T06:00:00.000Z|CALL|23600",
               stock_code := some "NIFTY",
               expiry_date := some "2025-02-13T06:00:00.000Z",
               strike_price := some 23600, right := some "call",
               subscription_type := none } := by
  decide

/-- C9 (counterexample).  One successful `subscribe_option` call with the
broker-format expiry `13-Feb-2025` issues one upstream subscribe call but
creates two distinct registry keys (`alias_iso` and `alias_raw` differ),
so an active upstream subscription does not have exactly one record. -/
theorem c9_counterexample_one_call_two_records :
    (dictKeys ((subscribeOption true c9Descriptor {}).1).subscriptions).length = 2 ∧
    ((subscribeOption true c9Descriptor {}).1).upstream.length = 1 := by
  constructor
  · decide
  · decide

/-- C9 (amended).  Each successful subscribe call (quote or market-depth
variant) issues exactly one upstream call and afterwards the registry's
keys are exactly the old keys plus `alias_iso` and `alias_raw` — two
distinct keys whenever the normalized expiry text differs from the passed
text, one otherwise; each of those keys holds the deterministic record
computed from the descriptor, whose stored alias equals its key. -/
theorem subscribe_option_record_keys (dv : Bool) (d : OptionDescriptor) (st : SvcState)
    (h : (subscribeOptionCore dv true d st).2 = true) :
    ∃ sn, parseFloatTrunc d.strike_price = some sn ∧
      (∀ k, (dictGet (subscribeOptionCore dv true d st).1.subscriptions k).isSome
          ↔ (k = optionAliasIso d sn ∨ k = optionAliasRaw d sn
              ∨ (dictGet st.subscriptions k).isSome)) ∧
      dictGet (subscribeOptionCore dv true d st).1.subscriptions (optionAliasIso d sn)
        = some (optionRecord d (optionAliasIso d sn) sn
            (if dv then some "market_depth" else none)) ∧
      dictGet (subscribeOptionCore dv true d st).1.subscriptions (optionAliasRaw d sn)
        = some (optionRecord d (optionAliasRaw d sn) sn
            (if dv then some "market_depth" else none)) ∧
      (subscribeOptionCore dv true d st).1.upstream
        = st.upstream ++ [UpstreamCall.subscribeOptionFeed d dv (!dv)] := by
  obtain ⟨hb, -, sn, hp⟩ := subscribeOptionCore_success_inv dv true d st h
  have h1 := subscribeOptionCore_success dv d st hb sn hp
  refine ⟨sn, hp, ?_, ?_, ?_, ?_⟩
  · intro k
    rw [h1]
    simp only
    rw [dictGet_dictSet_isSome, dictGet_dictSet_isSome, dictGet_dictSet_isSome]
    tauto
  · rw [h1]
    simp only
    exact dictGet_dictSet_self _ _ _
  · rw [h1]
    simp only
    by_cases hkk : optionAliasRaw d sn = optionAliasIso d sn
    · rw [hkk, dictGet_dictSet_self]
    · rw [dictGet_dictSet_ne _ _ _ _ hkk, dictGet_dictSet_self]
  · rw [h1]

/-- C9 (witness). -/
theorem subscribe_option_record_keys_witness :
    ((subscribeOptionCore false true c9Descriptor {}).1).upstream
      = [UpstreamCall.subscribeOptionFeed c9Descriptor false true] := by
  obtain ⟨sn, -, -, -, -, hup⟩ := subscribe_option_record_keys false c9Descriptor {} (by decide)
  simpa using hup

/-- C10 (counterexample).  A reachable registry key containing lowercase
letters (`alias_raw` of a `13-Feb-2025` subscription) is present, yet
`unsubscribe` of exactly that key changes nothing — the method upper-cases
its argument before the lookup, misses, and returns without removing the
record or calling upstream. -/
theorem c10_counterexample_lowercase_key_not_removed :
    ¬(dictGet ((subscribeOption true c9Descriptor {}).1).subscriptions
        "NIFTY|13-Feb-2025|CALL|23600" = none) ∧
    unsubscribe true "NIFTY|13-Feb-2025|CALL|23600" ((subscribeOption true c9Descriptor {}).1)
      = (subscribeOption true c9Descriptor {}).1 := by
  constructor
  · decide
  · decide

/-- C10 (amended).  `unsubscribe(k)` acts on `K = k.upper()`: with a breeze
session present, when `K` is a registry key the record at `K` is removed
unconditionally — the upstream attempt sits in a `try` whose `finally`
pops, so this holds whether or not `unsubscribe_feeds` raises — and
exactly one upstream call is attempted; when `K` is absent (even if `k`
itself is a stored key containing lowercase) the state is unchanged and no
upstream call is made. -/
theorem unsubscribe_uppercase_semantics (ok : Bool) (k : String) (st : SvcState)
    (hb : st.breezeAvailable = true) :
    ((dictGet st.subscriptions (pyUpper k)).isSome →
        (unsubscribe ok k st).subscriptions = dictPop st.subscriptions (pyUpper k) ∧
        dictGet (unsubscribe ok k st).subscriptions (pyUpper k) = none ∧
        (unsubscribe ok k st).upstream.length = st.upstream.length + 1) ∧
    (dictGet st.subscriptions (pyUpper k) = none → unsubscribe ok k st = st) := by
  unfold unsubscribe
  cases hg : dictGet st.subscriptions (pyUpper k) with
  | none =>
    simp [hb, hg]
  | some sub =>
    simp [hb, hg, dictGet_dictPop_self]

/-- C10 (witness). -/
theorem unsubscribe_uppercase_semantics_witness :
    (unsubscribe true "NIFTY|2025-02-13T06:00:00.000Z|CALL|23600"
        ((subscribeOption true c2Descriptor {}).1)).subscriptions = [] := by
  have h := (unsubscribe_uppercase_semantics true "NIFTY|2025-02-13T06:00:00.000Z|CALL|23600"
      ((subscribeOption true c2Descriptor {}).1) (by decide)).1 (by decide)
  rw [h.1]
  decide

end BreezeStream

namespace BreezeStream

/-- C3.  A tick carrying both a strike field (`strike_price` or `strike`)
and a right field (`right_type`, `right` or `option_type`) is routed to the
option-client set whenever a loop is installed, is never routed to the
plain-client set, and the chosen route does not depend on the subscription
registry (and hence not on whether alias resolution succeeded). -/
theorem option_tick_routing (loopSet : Bool) (subs subs' : Registry) (t : RawTick)
    (hs : t.strike_price.isSome = true ∨ t.strike.isSome = true)
    (hr : t.right_type.isSome = true ∨ t.right.isSome = true ∨ t.option_type.isSome = true) :
    (onTicks true subs t).2 = some RouteTarget.options ∧
    ¬((onTicks loopSet subs t).2 = some RouteTarget.plain) ∧
    (onTicks loopSet subs t).2 = (onTicks loopSet subs' t).2 := by
  have hopt : isOptionTick t = true := by
    unfold isOptionTick
    rcases hs with hs | hs <;> rcases hr with hr | hr | hr <;> simp [hs, hr]
  refine ⟨?_, ?_, ?_⟩
  · simp [onTicks, hopt]
  · cases loopSet
    · simp [onTicks]
    · simp [onTicks, hopt]
  · rfl

/-- C3 (witness). -/
theorem option_tick_routing_witness :
    (onTicks true [] c3Tick).2 = some RouteTarget.options :=
  (option_tick_routing true [] [("X", { exchange_code := "NSE", product_type := "cash" })]
    c3Tick (Or.inl rfl) (Or.inr (Or.inl rfl))).1

/-- C5 (counterexample).  An option client pinned to `2025-02-13` still
receives one copy of a tick resolving to the `2025-02-20` alias: its
socket is in `_option_clients`, and `_broadcast_options` sends to that set
without any expiry filtering — only the per-connection handler path
filters. -/
theorem c5_counterexample_mismatched_expiry_still_delivered :
    (optionClientDeliveries "2025-02-13" mismatchPayload).length = 1 := by
  decide

/-- C5 (amended).  For a client pinned to `2025-02-13`, the per-connection
filtered forwarder drops the `2025-02-20`-alias tick and forwards the
`2025-02-13`-alias tick; since the unfiltered option-set broadcast also
delivers every option tick once, the client receives the mismatched tick
once and the matching tick twice. -/
theorem pinned_expiry_filter_behavior :
    forwardFilteredOptionTick "2025-02-13" mismatchPayload = none ∧
    forwardFilteredOptionTick "2025-02-13" matchPayload = some matchPayload ∧
    optionClientDeliveries "2025-02-13" mismatchPayload = [mismatchPayload] ∧
    optionClientDeliveries "2025-02-13" matchPayload = [matchPayload, matchPayload] := by
  refine ⟨by decide, by decide, by decide, by decide⟩

/-- The bid ladder is stably sorted by descending price. -/
theorem sortBidsDesc_sorted (l : List DepthLevel) :
    (sortBidsDesc l).Pairwise (fun a b => b.price ≤ a.price) := by
  have h := @List.sorted_mergeSort DepthLevel (fun a b => decide (b.price ≤ a.price))
    (fun a b c hab hbc => by
      simp only [decide_eq_true_eq] at hab hbc ⊢
      exact le_trans hbc hab)
    (fun a b => by
      rcases le_total a.price b.price with h | h <;> simp [h])
    l
  exact h.imp (fun hab => by simpa using hab)

/-- The ask ladder is stably sorted by ascending price. -/
theorem sortAsksAsc_sorted (l : List DepthLevel) :
    (sortAsksAsc l).Pairwise (fun a b => a.price ≤ b.price) := by
  have h := @List.sorted_mergeSort DepthLevel (fun a b => decide (a.price ≤ b.price))
    (fun a b c hab hbc => by
      simp only [decide_eq_true_eq] at hab hbc ⊢
      exact le_trans hab hbc)
    (fun a b => by
      rcases le_total a.price b.price with h | h <;> simp [h])
    l
  exact h.imp (fun hab => by simpa using hab)

/-- Membership in the collected bid levels: exactly the (price, qty) pairs
some row carries completely at some level 1..5. -/
theorem mem_collectBids (rows : List DepthRow) (lvl : DepthLevel) :
    lvl ∈ collectBids rows ↔
      ∃ i ∈ levelIndices, ∃ r ∈ rows,
        r.buyRate i = some lvl.price ∧ r.buyQty i = some lvl.qty := by
  unfold collectBids
  rw [List.mem_flatMap]
  constructor
  · rintro ⟨i, hi, hmem⟩
    rw [List.mem_filterMap] at hmem
    obtain ⟨r, hr, hfr⟩ := hmem
    refine ⟨i, hi, r, hr, ?_⟩
    rcases hp : r.buyRate i with _ | p
    · rw [hp] at hfr
      simp at hfr
    · rcases hq : r.buyQty i with _ | q
      · rw [hp, hq] at hfr
        simp at hfr
      · rw [hp, hq] at hfr
        cases lvl with
        | mk lp lq =>
          simp only [Option.some.injEq, DepthLevel.mk.injEq] at hfr
          obtain ⟨hfp, hfq⟩ := hfr
          exact ⟨by rw [hfp], by rw [hfq]⟩
  · rintro ⟨i, hi, r, hr, hp, hq⟩
    exact ⟨i, hi, List.mem_filterMap.mpr ⟨r, hr, by rw [hp, hq]⟩⟩

/-- Membership in the collected ask levels. -/
theorem mem_collectAsks (rows : List DepthRow) (lvl : DepthLevel) :
    lvl ∈ collectAsks rows ↔
      ∃ i ∈ levelIndices, ∃ r ∈ rows,
        r.sellRate i = some lvl.price ∧ r.sellQty i = some lvl.qty := by
  unfold collectAsks
  rw [List.mem_flatMap]
  constructor
  · rintro ⟨i, hi, hmem⟩
    rw [List.mem_filterMap] at hmem
    obtain ⟨r, hr, hfr⟩ := hmem
    refine ⟨i, hi, r, hr, ?_⟩
    rcases hp : r.sellRate i with _ | p
    · rw [hp] at hfr
      simp at hfr
    · rcases hq : r.sellQty i with _ | q
      · rw [hp, hq] at hfr
        simp at hfr
      · rw [hp, hq] at hfr
        cases lvl with
        | mk lp lq =>
          simp only [Option.some.injEq, DepthLevel.mk.injEq] at hfr
          obtain ⟨hfp, hfq⟩ := hfr
          exact ⟨by rw [hfp], by rw [hfq]⟩
  · rintro ⟨i, hi, r, hr, hp, hq⟩
    exact ⟨i, hi, List.mem_filterMap.mpr ⟨r, hr, by rw [hp, hq]⟩⟩

/-- C6.  For every raw depth structure, the normalizer's bid ladder is
sorted descending by price and the ask ladder ascending, and the ladders
contain exactly the levels carrying both a price and a quantity; in the
one-level scenario the normalized payload is
`bids = [(100, 50)]`, `asks = [(101, 30)]`. -/
theorem depth_ladder_normalization :
    (∀ rows : List DepthRow,
      (sortBidsDesc (collectBids rows)).Pairwise (fun a b => b.price ≤ a.price) ∧
      (sortAsksAsc (collectAsks rows)).Pairwise (fun a b => a.price ≤ b.price) ∧
      (∀ lvl, lvl ∈ sortBidsDesc (collectBids rows) ↔
        ∃ i ∈ levelIndices, ∃ r ∈ rows,
          r.buyRate i = some lvl.price ∧ r.buyQty i = some lvl.qty) ∧
      (∀ lvl, lvl ∈ sortAsksAsc (collectAsks rows) ↔
        ∃ i ∈ levelIndices, ∃ r ∈ rows,
          r.sellRate i = some lvl.price ∧ r.sellQty i = some lvl.qty)) ∧
    (onTicks true [] scenarioDepthTick).1.bids = some [⟨100, 50⟩] ∧
    (onTicks true [] scenarioDepthTick).1.asks = some [⟨101, 30⟩] := by
  have hb : collectBids [scenarioRow] = [⟨100, 50⟩] := by decide
  have ha : collectAsks [scenarioRow] = [⟨101, 30⟩] := by decide
  refine ⟨fun rows => ⟨sortBidsDesc_sorted _, sortAsksAsc_sorted _, ?_, ?_⟩, ?_, ?_⟩
  · intro lvl
    rw [sortBidsDesc, List.mem_mergeSort]
    exact mem_collectBids rows lvl
  · intro lvl
    rw [sortAsksAsc, List.mem_mergeSort]
    exact mem_collectAsks rows lvl
  · simp [onTicks, scenarioDepthTick, hb, ha, sortBidsDesc, sortAsksAsc,
      List.mergeSort_singleton]
  · simp [onTicks, scenarioDepthTick, hb, ha, sortBidsDesc, sortAsksAsc,
      List.mergeSort_singleton]

/-- C7.  Broadcasting never surfaces an error and delivers to every
healthy client; but at the scenario input — ten clients of which the tenth
has an already-closed socket — the closed client is NOT removed from the
client set: its `send_text` coroutine is constructed without raising, so
the loop's `except` never fires, and the await-time failure is swallowed
by `gather(..., return_exceptions=True)` without any discard. -/
theorem broadcast_best_effort_closed_socket_retained :
    (∀ clients : List BClient, (broadcastRun clients).errorSurfaced = false) ∧
    (broadcastRun tenClients).delivered = [0, 1, 2, 3, 4, 5, 6, 7, 8] ∧
    (⟨9, SendBehavior.failAtAwait⟩ : BClient) ∈ (broadcastRun tenClients).clientsAfter := by
  refine ⟨fun clients => rfl, by decide, by decide⟩

end BreezeStream

namespace BreezeStream

/-- Unfolding: a successful attempt ends the loop at once. -/
theorem connectFrom_succ_none (f : Nat → Option Nat) (a r : Nat) (h : f a = none) :
    connectFrom f a (r + 1)
      = { connected := true, attemptsMade := 1, sleeps := [], raised := none } := by
  rw [connectFrom, h]

/-- Unfolding: a failing final attempt re-raises its error. -/
theorem connectFrom_one_some (f : Nat → Option Nat) (a e : Nat) (h : f a = some e) :
    connectFrom f a 1
      = { connected := false, attemptsMade := 1, sleeps := [], raised := some e } := by
  rw [connectFrom, h]
  rfl

/-- Unfolding: a failing non-final attempt sleeps `backoff * attempt` and
continues with the next attempt. -/
theorem connectFrom_succ2_some (f : Nat → Option Nat) (a r e : Nat) (h : f a = some e) :
    connectFrom f a (r + 1 + 1)
      = { connected := (connectFrom f (a + 1) (r + 1)).connected
          attemptsMade := (connectFrom f (a + 1) (r + 1)).attemptsMade + 1
          sleeps := backoffSeconds * (a : ℚ) :: (connectFrom f (a + 1) (r + 1)).sleeps
          raised := (connectFrom f (a + 1) (r + 1)).raised } := by
  rw [connectFrom, h]
  rfl

/-- Full characterization of the retry loop from attempt `a` with `r + 1`
attempts remaining: at least one and at most `r + 1` attempts run; the
connected flag is set exactly when some attempt in `a..a+r` succeeds; on
success no error is raised; when every attempt fails the last error is
re-raised, the flag stays false and all `r + 1` attempts run; and the
sleeps are `backoff * a, backoff * (a+1), ...`, one per failed attempt
that was not the last. -/
theorem connectFrom_spec (f : Nat → Option Nat) :
    ∀ r a,
      (1 ≤ (connectFrom f a (r + 1)).attemptsMade ∧
        (connectFrom f a (r + 1)).attemptsMade ≤ r + 1) ∧
      ((connectFrom f a (r + 1)).connected = true ↔
        ∃ k, a ≤ k ∧ k ≤ a + r ∧ f k = none) ∧
      ((connectFrom f a (r + 1)).connected = true →
        (connectFrom f a (r + 1)).raised = none) ∧
      ((∀ k, a ≤ k → k ≤ a + r → f k ≠ none) →
        (connectFrom f a (r + 1)).raised = f (a + r) ∧
        (connectFrom f a (r + 1)).connected = false ∧
        (connectFrom f a (r + 1)).attemptsMade = r + 1) ∧
      (connectFrom f a (r + 1)).sleeps
        = (List.range ((connectFrom f a (r + 1)).attemptsMade - 1)).map
            (fun i => backoffSeconds * (((a + i : Nat)) : ℚ)) := by
  intro r
  induction r with
  | zero =>
    intro a
    cases hfa : f a with
    | none =>
      rw [connectFrom_succ_none f a 0 hfa]
      refine ⟨⟨le_rfl, le_rfl⟩, ?_, fun _ => rfl, ?_, rfl⟩
      · simp only [true_iff]
        exact ⟨a, le_rfl, by omega, hfa⟩
      · intro h
        exact absurd hfa (h a le_rfl (by omega))
    | some e =>
      rw [connectFrom_one_some f a e hfa]
      refine ⟨⟨le_rfl, le_rfl⟩, ?_, ?_, ?_, rfl⟩
      · simp only [Bool.false_eq_true, false_iff]
        rintro ⟨k, hk1, hk2, hk⟩
        have hka : k = a := by omega
        rw [hka, hfa] at hk
        exact Option.some_ne_none e hk
      · intro h
        exact absurd h (by simp)
      · intro h
        have : a + 0 = a := by omega
        rw [this, hfa]
        exact ⟨rfl, rfl, rfl⟩
  | succ r ih =>
    intro a
    cases hfa : f a with
    | none =>
      rw [connectFrom_succ_none f a (r + 1) hfa]
      refine ⟨⟨le_rfl, by dsimp only; omega⟩, ?_, fun _ => rfl, ?_, rfl⟩
      · simp only [true_iff]
        exact ⟨a, le_rfl, by omega, hfa⟩
      · intro h
        exact absurd hfa (h a le_rfl (by omega))
    | some e =>
      obtain ⟨⟨ih1a, ih1b⟩, ih2, ih3, ih4, ih5⟩ := ih (a + 1)
      rw [connectFrom_succ2_some f a r e hfa]
      refine ⟨⟨?_, ?_⟩, ?_, ?_, ?_, ?_⟩
      · simp only
        omega
      · simp only
        omega
      · simp only
        rw [ih2]
        constructor
        · rintro ⟨k, hk1, hk2, hk⟩
          exact ⟨k, by omega, by omega, hk⟩
        · rintro ⟨k, hk1, hk2, hk⟩
          have hka : ¬(k = a) := by
            intro hh
            rw [hh, hfa] at hk
            exact Option.some_ne_none e hk
          exact ⟨k, by omega, by omega, hk⟩
      · simp only
        exact ih3
      · intro h
        simp only
        have h2 : ∀ k, a + 1 ≤ k → k ≤ a + 1 + r → f k ≠ none :=
          fun k hk1 hk2 => h k (by omega) (by omega)
        obtain ⟨hr1, hr2, hr3⟩ := ih4 h2
        refine ⟨?_, hr2, by omega⟩
        rw [hr1]
        congr 1
        omega
      · simp only
        rw [ih5, Nat.add_sub_cancel]
        have hA : (connectFrom f (a + 1) (r + 1)).attemptsMade
            = ((connectFrom f (a + 1) (r + 1)).attemptsMade - 1) + 1 := by omega
        rw [hA, List.range_succ_eq_map, List.map_cons, List.map_map]
        have htail : ((fun i => backoffSeconds * (((a + i : Nat)) : ℚ)) ∘ Nat.succ)
            = fun i => backoffSeconds * (((a + 1 + i : Nat)) : ℚ) := by
          funext i
          simp only [Function.comp]
          congr 2
          omega
        rw [htail]
        have hhead : backoffSeconds * ((a : ℚ)) = backoffSeconds * (((a + 0 : Nat)) : ℚ) := by
          norm_num
        rw [← hA]
        exact congrArg (fun x => x :: _) hhead

/-- C8.  `connect()` attempts `ws_connect` at most 5 times; it succeeds
(setting the connected flag, raising nothing) exactly when some attempt
among the first five succeeds; after five failures it re-raises the fifth
attempt's error and leaves the flag false so a later call retries from
scratch; and between attempts it sleeps `1.5 * attempt` seconds —
linearly increasing backoff. -/
theorem connect_retry_spec (f : Nat → Option Nat) :
    (1 ≤ (connectRun f).attemptsMade ∧ (connectRun f).attemptsMade ≤ maxAttempts) ∧
    ((connectRun f).connected = true ↔ ∃ k, 1 ≤ k ∧ k ≤ 5 ∧ f k = none) ∧
    ((connectRun f).connected = true → (connectRun f).raised = none) ∧
    ((∀ k, 1 ≤ k → k ≤ 5 → f k ≠ none) →
      (connectRun f).raised = f 5 ∧ (connectRun f).connected = false ∧
      (connectRun f).attemptsMade = 5) ∧
    (connectRun f).sleeps
      = (List.range ((connectRun f).attemptsMade - 1)).map
          (fun i => backoffSeconds * (((1 + i : Nat)) : ℚ)) := by
  have h := connectFrom_spec f 4 1
  have he : connectRun f = connectFrom f 1 (4 + 1) := rfl
  rw [he]
  obtain ⟨⟨h1a, h1b⟩, h2, h3, h4, h5⟩ := h
  refine ⟨⟨h1a, h1b⟩, ?_, h3, ?_, h5⟩
  · rw [h2]
  · intro hall
    have h9 : ∀ k, 1 ≤ k → k ≤ 1 + 4 → f k ≠ none :=
      fun k hk1 hk2 => hall k hk1 (by omega)
    obtain ⟨hr1, hr2, hr3⟩ := h4 h9
    exact ⟨hr1, hr2, hr3⟩

/-- C8 (witness). -/
theorem connect_retry_spec_witness :
    (connectRun (fun _ => some 7)).raised = some 7 ∧
    (connectRun (fun _ => some 7)).connected = false ∧
    (connectRun (fun _ => some 7)).attemptsMade = 5 := by
  obtain ⟨-, -, -, h4, -⟩ := connect_retry_spec (fun _ => some 7)
  exact h4 (fun k _ _ => by simp)

end BreezeStream

namespace BreezeStream

/-- C4.  Two plain ticks 100 ms apart: the live delivery path (`on_ticks`
→ `_broadcast` → `send_text`) sends BOTH to a registered healthy client —
two broadcasts deliver two messages, with no debounce anywhere on the
path.  The per-(connection, symbol) gate the spec describes exists only in
`forward_tick`, which implements exactly the described suppression (first
tick at monotonic ms 1000 sent, second at 1100 suppressed) but is defined
inside `ws_ticks` and never invoked or registered. -/
theorem ws_ticks_no_debounce_on_delivery_path :
    (broadcastRun [⟨0, SendBehavior.ok⟩]).delivered.length
      + (broadcastRun (broadcastRun [⟨0, SendBehavior.ok⟩]).clientsAfter).delivered.length
      = 2 ∧
    (forwardTick {} debounceTick 1000).2 = true ∧
    (forwardTick (forwardTick {} debounceTick 1000).1 debounceTick 1100).2 = false := by
  have h1 : pyStr (pyOr (extractSymbolFromTick ({} : ConnState) debounceTick)
      (({} : ConnState)).symbol) = "NIFTY" := by decide
  have e1 : forwardTick ({} : ConnState) debounceTick 1000
      = ({ symbol := none, lastSentBySym := [("NIFTY", 1000)], minIntervalMs := 250 }, true) := by
    rw [forwardTick, h1]
    norm_num [tsGet, tsSet]
  refine ⟨by decide, ?_, ?_⟩
  · rw [e1]
  · rw [e1]
    have h2 : pyStr (pyOr (extractSymbolFromTick
        ({ symbol := none, lastSentBySym := [("NIFTY", 1000)], minIntervalMs := 250 } : ConnState)
        debounceTick)
        (({ symbol := none, lastSentBySym := [("NIFTY", 1000)], minIntervalMs := 250 }
          : ConnState)).symbol) = "NIFTY" := by decide
    have h3 : tsGet [("NIFTY", (1000 : ℚ))] "NIFTY" = some 1000 := by decide
    rw [forwardTick, h2]
    norm_num [h3]

end BreezeStream
